import Mathlib

/-!
Verification development for the sugars ETL pipeline
(src/sugars/etl_service.py, src/sugars/models.py, src/sugars/events/).

The pipeline fetches three daily series (sugar futures SR0, USD/CNY
exchange rate, BDI freight index), normalizes them, left-joins the
exchange rate and freight index onto the sugar trading calendar, sorts by
date, forward-fills the two joined columns, keeps the last 365 days,
computes an import-cost estimate, drops rows with any null, and upserts
the result into the market_daily table keyed by record_date.

Numeric values are modelled as exact rationals (ℚ); calendar dates as
integers (day numbers); timestamps as natural numbers. The database is
modelled as a function from record_date to an optional stored row, which
reflects the primary-key uniqueness of market_daily.
-/

namespace Sugars

/-- Output row of the q_sugar cleaning step (etl_service.py lines 54-64):
record_date, sugar_close (required), sugar_open (nullable in the model
because the upstream open column may be null). -/
structure SugarRow where
  record_date : Int
  sugar_close : ℚ
  sugar_open : Option ℚ
deriving Repr, DecidableEq

/-- Output row of the q_fx cleaning step (etl_service.py lines 72-88). -/
structure FxRow where
  record_date : Int
  usd_cny_rate : ℚ
deriving Repr, DecidableEq

/-- Output row of the q_bdi cleaning step (etl_service.py lines 91-100). -/
structure BdiRow where
  record_date : Int
  bdi_index : ℚ
deriving Repr, DecidableEq

/-- A row of the joined frame df_final before drop_nulls: the two joined
columns are optional because a left join leaves nulls on dates with no
matching observation. -/
structure MergedRow where
  record_date : Int
  sugar_close : ℚ
  sugar_open : Option ℚ
  usd_cny_rate : Option ℚ
  bdi_index : Option ℚ
deriving Repr, DecidableEq

/-- A fully resolved record as handed to the upsert loop
(etl_service.py line 136, df_final.to_dicts after drop_nulls): every
column is non-null. -/
structure OutRecord where
  record_date : Int
  sugar_close : ℚ
  sugar_open : ℚ
  usd_cny_rate : ℚ
  bdi_index : ℚ
  import_cost_estimate : ℚ
deriving Repr, DecidableEq

/-- Rounding to n decimal places, the embedding of the round operations
in etl_service.py (the .round(2) on the import-cost column). -/
def roundTo (n : Nat) (q : ℚ) : ℚ := ((⌊q * 10 ^ n + 1 / 2⌋ : ℤ) : ℚ) / 10 ^ n

/-- Unit correction applied to the usd_cny_rate column
(etl_service.py lines 82-87): when the raw value exceeds 50 it is read as
a per-100-units quote and divided by 100; otherwise it passes through
unchanged. The source applies no rounding here. -/
def normalizeFxValue (v : ℚ) : ℚ := if v > 50 then v / 100 else v

/-- The unit-correction step of q_fx applied to the whole series
(etl_service.py lines 81-88). -/
def normalizeFxSeries (fx : List FxRow) : List FxRow :=
  fx.map (fun r => { r with usd_cny_rate := normalizeFxValue r.usd_cny_rate })

/-- The import-cost formula of etl_service.py lines 122-129:
(22 * usd_cny_rate * 22.0462 * 1.5 + (bdi_index / 10 + 200)).round(2). -/
def importCost (rate bdi : ℚ) : ℚ :=
  roundTo 2 (22 * rate * 22.0462 * 1.5 + (bdi / 10 + 200))

/-- The sort("record_date") step of etl_service.py line 107: insertion
sort ascending by record_date. -/
def sortByDate (l : List MergedRow) : List MergedRow :=
  List.insertionSort (fun a b => a.record_date ≤ b.record_date) l

/-- The forward_fill step of etl_service.py lines 109-114: a null in the
usd_cny_rate or bdi_index column is replaced by the accumulated most
recent non-null value of the same column; a non-null value is kept and
becomes the new accumulator. -/
def ffillRows (accFx accBdi : Option ℚ) : List MergedRow → List MergedRow
  | [] => []
  | r :: rs =>
    let fx := match r.usd_cny_rate with
      | some v => some v
      | none => accFx
    let bd := match r.bdi_index with
      | some v => some v
      | none => accBdi
    { r with usd_cny_rate := fx, bdi_index := bd } :: ffillRows fx bd rs

/-- Forward fill of a single column, used to state what ffillRows does
to each column. -/
def ffillCol (acc : Option ℚ) : List (Option ℚ) → List (Option ℚ)
  | [] => []
  | x :: xs =>
    let y := match x with
      | some v => some v
      | none => acc
    y :: ffillCol y xs

/-- The last non-null value of a column, scanning left to right from the
accumulator acc: the value a forward fill carries after consuming the
list. -/
def lastObserved (acc : Option ℚ) : List (Option ℚ) → Option ℚ
  | [] => acc
  | x :: xs =>
    lastObserved (match x with
      | some v => some v
      | none => acc) xs

/-- The join, sort, forward-fill and 365-day-window stages of df_final
(etl_service.py lines 104-117): left join of the fx and bdi series onto
the sugar calendar, sort ascending by record_date, forward fill the two
joined columns, keep record_date of at most 365 days before today. -/
def dfMerged (today : Int) (sugar : List SugarRow) (fx : List FxRow)
    (bdi : List BdiRow) : List MergedRow :=
  let joined := sugar.map (fun s =>
    { record_date := s.record_date
      sugar_close := s.sugar_close
      sugar_open := s.sugar_open
      usd_cny_rate :=
        (fx.find? (fun f => f.record_date = s.record_date)).map
          (fun f => f.usd_cny_rate)
      bdi_index :=
        (bdi.find? (fun b => b.record_date = s.record_date)).map
          (fun b => b.bdi_index) })
  let sorted := sortByDate joined
  let filled := ffillRows none none sorted
  filled.filter (fun r => today - 365 ≤ r.record_date)

/-- The with_columns(import_cost_estimate) plus drop_nulls steps of
etl_service.py lines 122-129 on one row: a row survives exactly when all
optional columns are non-null, and then carries the import-cost value. -/
def toOutRecord (r : MergedRow) : Option OutRecord :=
  match r.sugar_open, r.usd_cny_rate, r.bdi_index with
  | some o, some x, some b =>
    some { record_date := r.record_date
           sugar_close := r.sugar_close
           sugar_open := o
           usd_cny_rate := x
           bdi_index := b
           import_cost_estimate := importCost x b }
  | _, _, _ => none

/-- The final record list written to the database (df_final after
drop_nulls, etl_service.py line 129 and line 136). The fx series passed
here is the already unit-corrected q_fx output. -/
def dfFinalRecords (today : Int) (sugar : List SugarRow) (fx : List FxRow)
    (bdi : List BdiRow) : List OutRecord :=
  (dfMerged today sugar fx bdi).filterMap toOutRecord

/-- The whole transform from cleaned inputs to records: unit-correct the
fx series, then join, sort, fill, window, derive and drop nulls. -/
def pipelineRecords (today : Int) (sugar : List SugarRow) (fx : List FxRow)
    (bdi : List BdiRow) : List OutRecord :=
  dfFinalRecords today sugar (normalizeFxSeries fx) bdi

/-- Claim C2 counterexample: the spec says a raw value v above 50 is
normalized to v/100 rounded to 4 decimal places; the source
(etl_service.py lines 82-87) divides by 100 without rounding. At
v = 51.11115 the code yields 0.5111115 while the spec formula yields
0.5111. -/
theorem C2_fx_rounding_counterexample :
    (51.11115 : ℚ) > 50 ∧
      normalizeFxValue 51.11115 ≠ roundTo 4 ((51.11115 : ℚ) / 100) := by
  constructor
  · norm_num
  · norm_num [normalizeFxValue, roundTo]

/-- Claim C2 (amended): for every raw exchange-rate value v in the
fetched series, the normalized value is exactly v/100 (with no rounding)
when v is above 50, and exactly v unchanged otherwise. -/
theorem C2_fx_unit_correction (fx : List FxRow) :
    (normalizeFxSeries fx).map (fun r => r.usd_cny_rate) =
      fx.map (fun r =>
        if r.usd_cny_rate > 50 then r.usd_cny_rate / 100 else r.usd_cny_rate) := by
  induction fx with
  | nil => rfl
  | cons r rs ih =>
    simp only [normalizeFxSeries, List.map_cons, normalizeFxValue] at ih ⊢
    exact congrArg _ ih

/-- Evaluation of the whole transform on a one-day snapshot: sugar close
100 and open 99 on day 1, exchange rate 7 on day 1, freight index 1000 on
day 1, run on day 1. -/
theorem singleDayRun_eval :
    dfFinalRecords 1 [⟨1, 100, some 99⟩] [⟨1, 7⟩] [⟨1, 1000⟩] =
      [⟨1, 100, 99, 7, 1000, importCost 7 1000⟩] := by
  norm_num [dfFinalRecords, dfMerged, sortByDate, List.insertionSort,
    List.orderedInsert, ffillRows, toOutRecord, List.find?, List.filterMap]

/-- Claim C3: every record the pipeline emits stores as its import-cost
estimate exactly round(22 * usd_cny_rate * 22.0462 * 1.5 +
(bdi_index / 10 + 200), 2) of its own (forward-filled) exchange rate and
freight index (etl_service.py lines 122-129). -/
theorem C3_import_cost_formula (today : Int) (sugar : List SugarRow)
    (fx : List FxRow) (bdi : List BdiRow) (r : OutRecord)
    (hr : r ∈ dfFinalRecords today sugar fx bdi) :
    r.import_cost_estimate =
      roundTo 2 (22 * r.usd_cny_rate * 22.0462 * 1.5 + (r.bdi_index / 10 + 200)) := by
  obtain ⟨m, _, hmr⟩ := List.mem_filterMap.mp hr
  unfold toOutRecord at hmr
  split at hmr
  · injection hmr with h
    subst h
    rfl
  · exact absurd hmr (by simp)

/-- Witness for C3 at the one-day snapshot of singleDayRun_eval. -/
theorem C3_import_cost_formula_witness :
    (⟨1, 100, 99, 7, 1000, importCost 7 1000⟩ : OutRecord) ∈
        dfFinalRecords 1 [⟨1, 100, some 99⟩] [⟨1, 7⟩] [⟨1, 1000⟩] ∧
      (importCost 7 1000 : ℚ) =
        roundTo 2 (22 * (7 : ℚ) * 22.0462 * 1.5 + ((1000 : ℚ) / 10 + 200)) :=
  ⟨by rw [singleDayRun_eval]; exact List.mem_singleton.mpr rfl,
    C3_import_cost_formula 1 [⟨1, 100, some 99⟩] [⟨1, 7⟩] [⟨1, 1000⟩]
      ⟨1, 100, 99, 7, 1000, importCost 7 1000⟩
      (by rw [singleDayRun_eval]; exact List.mem_singleton.mpr rfl)⟩

/-- Claim C4 counterexample: the spec works the example
exchange_rate = 7.0, freight_index = 1000 out to 5389.67, but
22 * 7 * 22.0462 * 1.5 + (1000 / 10 + 200) = 5392.6722, so the code
computes 5392.67, not 5389.67. -/
theorem C4_worked_example_counterexample :
    importCost 7 1000 = 5392.67 ∧ importCost 7 1000 ≠ 5389.67 := by
  constructor
  · norm_num [importCost, roundTo]
  · norm_num [importCost, roundTo]

/-- Claim C4 (amended): for exchange_rate 7.0 and freight_index 1000 the
computed derived cost estimate equals 5392.67, both as the bare formula
and through the whole transform on a one-day snapshot. -/
theorem C4_worked_example_amended :
    importCost 7 1000 = 5392.67 ∧
      dfFinalRecords 1 [⟨1, 100, some 99⟩] [⟨1, 7⟩] [⟨1, 1000⟩] =
        [⟨1, 100, 99, 7, 1000, 5392.67⟩] := by
  constructor
  · norm_num [importCost, roundTo]
  · rw [singleDayRun_eval]
    norm_num [importCost, roundTo]

instance : IsTotal MergedRow (fun a b => a.record_date ≤ b.record_date) :=
  ⟨fun a b => Int.le_total a.record_date b.record_date⟩

instance : IsTrans MergedRow (fun a b => a.record_date ≤ b.record_date) :=
  ⟨fun _ _ _ hab hbc => le_trans hab hbc⟩

/-- Forward-filling the rows acts on the usd_cny_rate column exactly as
the one-column forward fill. -/
theorem ffillRows_fx_col (l : List MergedRow) :
    ∀ accFx accBdi, (ffillRows accFx accBdi l).map (fun r => r.usd_cny_rate) =
      ffillCol accFx (l.map (fun r => r.usd_cny_rate)) := by
  induction l with
  | nil => intro accFx accBdi; rfl
  | cons r rs ih =>
    intro accFx accBdi
    simp only [ffillRows, ffillCol, List.map_cons]
    exact congrArg _ (ih _ _)

/-- Forward-filling the rows acts on the bdi_index column exactly as the
one-column forward fill. -/
theorem ffillRows_bdi_col (l : List MergedRow) :
    ∀ accFx accBdi, (ffillRows accFx accBdi l).map (fun r => r.bdi_index) =
      ffillCol accBdi (l.map (fun r => r.bdi_index)) := by
  induction l with
  | nil => intro accFx accBdi; rfl
  | cons r rs ih =>
    intro accFx accBdi
    simp only [ffillRows, ffillCol, List.map_cons]
    exact congrArg _ (ih _ _)

/-- Forward filling leaves the record_date column unchanged. -/
theorem ffillRows_date_col (l : List MergedRow) :
    ∀ accFx accBdi, (ffillRows accFx accBdi l).map (fun r => r.record_date) =
      l.map (fun r => r.record_date) := by
  induction l with
  | nil => intro accFx accBdi; rfl
  | cons r rs ih =>
    intro accFx accBdi
    simp only [ffillRows, List.map_cons]
    exact congrArg _ (ih _ _)

/-- Cell i of a forward-filled column is the last non-null value among
the first i+1 cells of the input column (seeded with acc). -/
theorem ffillCol_getElem (l : List (Option ℚ)) :
    ∀ (acc : Option ℚ) (i : Nat), i < l.length →
      (ffillCol acc l)[i]? = some (lastObserved acc (l.take (i + 1))) := by
  induction l with
  | nil => intro acc i h; exact absurd h (by simp)
  | cons x xs ih =>
    intro acc i h
    match i with
    | 0 => cases x <;> simp [ffillCol, lastObserved]
    | j + 1 =>
      have hj : j < xs.length := by simpa using h
      cases x <;> simpa [ffillCol, lastObserved] using ih _ j hj

/-- The merged frame is sorted ascending by record_date: sorting happens
before the fill, the fill preserves dates positionally, and the window
filter preserves order. -/
theorem sorted_fill_sort (l : List MergedRow) (p : MergedRow → Bool) :
    ((ffillRows none none (sortByDate l)).filter p).Pairwise
      (fun a b => a.record_date ≤ b.record_date) := by
  apply List.Pairwise.filter
  have hsorted : (sortByDate l).Pairwise
      (fun a b => a.record_date ≤ b.record_date) :=
    List.sorted_insertionSort _ l
  have h1 : ((sortByDate l).map (fun r => r.record_date)).Pairwise (· ≤ ·) :=
    List.pairwise_map.mpr hsorted
  have h2 : ((ffillRows none none (sortByDate l)).map
      (fun r => r.record_date)).Pairwise (· ≤ ·) := by
    rw [ffillRows_date_col]
    exact h1
  exact List.pairwise_map.mp h2

theorem dfMerged_sorted (today : Int) (sugar : List SugarRow) (fx : List FxRow)
    (bdi : List BdiRow) :
    (dfMerged today sugar fx bdi).Pairwise
      (fun a b => a.record_date ≤ b.record_date) := by
  unfold dfMerged
  exact sorted_fill_sort _ _

/-- Claim C5: the merged table is sorted ascending by date; after the
forward fill, every cell of the usd_cny_rate and bdi_index columns equals
the most recent non-null value at or before that position (so a null is
filled only from earlier rows, never later ones); and on the concrete
snapshot of the spec (exchange-rate observations only on days 1 and 5
with values 7.0 and 7.2, sugar trading days 1-5), days 1-4 carry rate 7
and day 5 carries 7.2. -/
theorem C5_forward_fill :
    (∀ (today : Int) (sugar : List SugarRow) (fx : List FxRow)
        (bdi : List BdiRow),
      (dfMerged today sugar fx bdi).Pairwise
        (fun a b => a.record_date ≤ b.record_date)) ∧
    (∀ (rows : List MergedRow) (i : Nat), i < rows.length →
      ((ffillRows none none rows).map (fun r => r.usd_cny_rate))[i]? =
          some (lastObserved none
            ((rows.map (fun r => r.usd_cny_rate)).take (i + 1))) ∧
        ((ffillRows none none rows).map (fun r => r.bdi_index))[i]? =
          some (lastObserved none
            ((rows.map (fun r => r.bdi_index)).take (i + 1)))) ∧
    ((dfMerged 5
        [⟨1, 100, some 99⟩, ⟨2, 101, some 100⟩, ⟨3, 102, some 101⟩,
          ⟨4, 103, some 102⟩, ⟨5, 104, some 103⟩]
        [⟨1, 7⟩, ⟨5, 36/5⟩] []).map
          (fun r => (r.record_date, r.usd_cny_rate)) =
      [(1, some 7), (2, some 7), (3, some 7), (4, some 7), (5, some (36/5))]) := by
  refine ⟨dfMerged_sorted, fun rows i hi => ⟨?_, ?_⟩, ?_⟩
  · rw [ffillRows_fx_col]
    exact ffillCol_getElem _ none i (by simpa using hi)
  · rw [ffillRows_bdi_col]
    exact ffillCol_getElem _ none i (by simpa using hi)
  · norm_num [dfMerged, sortByDate, List.insertionSort, List.orderedInsert,
      ffillRows, List.find?]

/-- Witness for C5 at a concrete two-row merged list and index 1. -/
theorem C5_forward_fill_witness :
    (1 : Nat) <
        ([⟨1, 100, some 99, some 7, none⟩,
          ⟨2, 101, some 100, none, some 1000⟩] : List MergedRow).length ∧
      (((ffillRows none none
            [⟨1, 100, some 99, some 7, none⟩,
              ⟨2, 101, some 100, none, some 1000⟩]).map
          (fun r => r.usd_cny_rate))[1]? =
          some (lastObserved none
            ((([⟨1, 100, some 99, some 7, none⟩,
              ⟨2, 101, some 100, none, some 1000⟩] : List MergedRow).map
                (fun r => r.usd_cny_rate)).take 2)) ∧
        ((ffillRows none none
            [⟨1, 100, some 99, some 7, none⟩,
              ⟨2, 101, some 100, none, some 1000⟩]).map
          (fun r => r.bdi_index))[1]? =
          some (lastObserved none
            ((([⟨1, 100, some 99, some 7, none⟩,
              ⟨2, 101, some 100, none, some 1000⟩] : List MergedRow).map
                (fun r => r.bdi_index)).take 2))) :=
  ⟨by norm_num,
    C5_forward_fill.2.1
      [⟨1, 100, some 99, some 7, none⟩, ⟨2, 101, some 100, none, some 1000⟩]
      1 (by norm_num)⟩

/-- If every row of a list has a null usd_cny_rate, forward filling from
a null accumulator leaves every usd_cny_rate null. -/
theorem ffill_fx_none (l : List MergedRow) :
    ∀ accBdi, (∀ r ∈ l, r.usd_cny_rate = none) →
      ∀ m ∈ ffillRows none accBdi l, m.usd_cny_rate = none := by
  induction l with
  | nil => intro accBdi _ m hm; exact absurd hm (by simp [ffillRows])
  | cons r rs ih =>
    intro accBdi hall m hm
    have hr : r.usd_cny_rate = none := hall r (by simp)
    simp only [ffillRows, hr] at hm
    rcases List.mem_cons.mp hm with h | h
    · rw [h]
    · exact ih _ (fun x hx => hall x (List.mem_cons_of_mem r hx)) m h

/-- Claim C6: when no exchange-rate and no freight-index observation
falls on any sugar trading date, the final record set is empty even for a
non-empty sugar calendar — the left join leaves both columns null on
every row, the forward fill has nothing to carry, and drop_nulls removes
every row (etl_service.py lines 102-129). -/
theorem C6_disjoint_calendars (today : Int) (sugar : List SugarRow)
    (fx : List FxRow) (bdi : List BdiRow)
    (hfx : ∀ f ∈ fx, ∀ s ∈ sugar, f.record_date ≠ s.record_date)
    (_hbdi : ∀ b ∈ bdi, ∀ s ∈ sugar, b.record_date ≠ s.record_date) :
    dfFinalRecords today sugar fx bdi = [] := by
  unfold dfFinalRecords
  apply List.filterMap_eq_nil_iff.mpr
  intro m hm
  have hnone : m.usd_cny_rate = none := by
    simp only [dfMerged] at hm
    have hm2 := (List.mem_filter.mp hm).1
    apply ffill_fx_none _ none _ m hm2
    intro x hx
    have hx2 : x ∈ sugar.map (fun s =>
        ({ record_date := s.record_date
           sugar_close := s.sugar_close
           sugar_open := s.sugar_open
           usd_cny_rate :=
             (fx.find? (fun f => f.record_date = s.record_date)).map
               (fun f => f.usd_cny_rate)
           bdi_index :=
             (bdi.find? (fun b => b.record_date = s.record_date)).map
               (fun b => b.bdi_index) } : MergedRow)) :=
      (List.perm_insertionSort _ _).mem_iff.mp hx
    obtain ⟨s, hs, hsx⟩ := List.mem_map.mp hx2
    rw [← hsx]
    have hfind : fx.find? (fun f => f.record_date = s.record_date) = none :=
      List.find?_eq_none.mpr (fun f hf => by
        simpa using hfx f hf s hs)
    simp [hfind]
  rcases m with ⟨d, c, o, u, b⟩
  simp only at hnone
  subst hnone
  cases o <;> cases b <;> rfl

/-- Witness for C6: sugar trades on day 1, the fx observation is on day 2
and the bdi observation on day 3, so nothing is written. -/
theorem C6_disjoint_calendars_witness :
    (∀ f ∈ ([⟨2, 7⟩] : List FxRow), ∀ s ∈ ([⟨1, 100, some 99⟩] : List SugarRow),
        f.record_date ≠ s.record_date) ∧
      (∀ b ∈ ([⟨3, 1000⟩] : List BdiRow),
        ∀ s ∈ ([⟨1, 100, some 99⟩] : List SugarRow),
          b.record_date ≠ s.record_date) ∧
      dfFinalRecords 1 [⟨1, 100, some 99⟩] [⟨2, 7⟩] [⟨3, 1000⟩] = [] :=
  ⟨by norm_num, by norm_num,
    C6_disjoint_calendars 1 [⟨1, 100, some 99⟩] [⟨2, 7⟩] [⟨3, 1000⟩]
      (by norm_num) (by norm_num)⟩

/-- Claim C9: the implicit 365-day window of etl_service.py line 116 —
every record handed to the upsert loop has record_date at most 365 days
before the run's current date, and any strictly older date is excluded
from the write set. -/
theorem C9_window_365 (today : Int) (sugar : List SugarRow) (fx : List FxRow)
    (bdi : List BdiRow) :
    (∀ r ∈ dfFinalRecords today sugar fx bdi, today - 365 ≤ r.record_date) ∧
      (∀ d : Int, d < today - 365 →
        ∀ r ∈ dfFinalRecords today sugar fx bdi, r.record_date ≠ d) := by
  have hbound : ∀ r ∈ dfFinalRecords today sugar fx bdi,
      today - 365 ≤ r.record_date := by
    intro r hr
    obtain ⟨m, hm, hmr⟩ := List.mem_filterMap.mp hr
    have hdate : r.record_date = m.record_date := by
      unfold toOutRecord at hmr
      split at hmr
      · injection hmr with h
        subst h
        rfl
      · exact absurd hmr (by simp)
    simp only [dfMerged] at hm
    have hp := (List.mem_filter.mp hm).2
    rw [hdate]
    simpa using hp
  refine ⟨hbound, fun d hd r hr hrd => ?_⟩
  have := hbound r hr
  rw [hrd] at this
  omega

/-- Witness for C9 at the one-day snapshot. -/
theorem C9_window_365_witness :
    ((⟨1, 100, 99, 7, 1000, importCost 7 1000⟩ : OutRecord) ∈
        dfFinalRecords 1 [⟨1, 100, some 99⟩] [⟨1, 7⟩] [⟨1, 1000⟩]) ∧
      (1 - 365 : Int) ≤
        (⟨1, 100, 99, 7, 1000, importCost 7 1000⟩ : OutRecord).record_date :=
  ⟨by rw [singleDayRun_eval]; exact List.mem_singleton.mpr rfl,
    (C9_window_365 1 [⟨1, 100, some 99⟩] [⟨1, 7⟩] [⟨1, 1000⟩]).1
      ⟨1, 100, 99, 7, 1000, importCost 7 1000⟩
      (by rw [singleDayRun_eval]; exact List.mem_singleton.mpr rfl)⟩

/-- Claim C10: every written record is fully non-null — each output
record arises from a merged row whose sugar_open, usd_cny_rate and
bdi_index are all non-null, and any merged row whose sugar_open is null
is dropped by drop_nulls regardless of the other columns
(etl_service.py line 129). -/
theorem C10_no_null_output (today : Int) (sugar : List SugarRow)
    (fx : List FxRow) (bdi : List BdiRow) :
    (∀ r ∈ dfFinalRecords today sugar fx bdi,
      ∃ m ∈ dfMerged today sugar fx bdi,
        m.record_date = r.record_date ∧ m.sugar_close = r.sugar_close ∧
          m.sugar_open = some r.sugar_open ∧
          m.usd_cny_rate = some r.usd_cny_rate ∧
          m.bdi_index = some r.bdi_index) ∧
      (∀ m : MergedRow, m.sugar_open = none → toOutRecord m = none) := by
  constructor
  · intro r hr
    obtain ⟨m, hm, hmr⟩ := List.mem_filterMap.mp hr
    refine ⟨m, hm, ?_⟩
    rcases m with ⟨d, c, o, u, b⟩
    rcases o with _ | ov
    · exact absurd hmr (by cases u <;> cases b <;> simp [toOutRecord])
    rcases u with _ | uv
    · exact absurd hmr (by cases b <;> simp [toOutRecord])
    rcases b with _ | bv
    · exact absurd hmr (by simp [toOutRecord])
    simp only [toOutRecord, Option.some.injEq] at hmr
    subst hmr
    exact ⟨rfl, rfl, rfl, rfl, rfl⟩
  · intro m hm
    rcases m with ⟨d, c, o, u, b⟩
    simp only at hm
    subst hm
    cases u <;> cases b <;> rfl

/-- Witness for C10: the one-day snapshot record is fully resolved, and a
merged row of day 1 with a null open price is dropped even though its
exchange rate and freight index are present. -/
theorem C10_no_null_output_witness :
    (∃ m ∈ dfMerged 1 [⟨1, 100, some 99⟩] [⟨1, 7⟩] [⟨1, 1000⟩],
        m.record_date =
            (⟨1, 100, 99, 7, 1000, importCost 7 1000⟩ : OutRecord).record_date ∧
          m.sugar_close =
            (⟨1, 100, 99, 7, 1000, importCost 7 1000⟩ : OutRecord).sugar_close ∧
          m.sugar_open =
            some (⟨1, 100, 99, 7, 1000, importCost 7 1000⟩ : OutRecord).sugar_open ∧
          m.usd_cny_rate =
            some (⟨1, 100, 99, 7, 1000, importCost 7 1000⟩ : OutRecord).usd_cny_rate ∧
          m.bdi_index =
            some (⟨1, 100, 99, 7, 1000, importCost 7 1000⟩ : OutRecord).bdi_index) ∧
      toOutRecord ⟨1, 100, none, some 7, some 1000⟩ = none :=
  ⟨(C10_no_null_output 1 [⟨1, 100, some 99⟩] [⟨1, 7⟩] [⟨1, 1000⟩]).1
      ⟨1, 100, 99, 7, 1000, importCost 7 1000⟩
      (by rw [singleDayRun_eval]; exact List.mem_singleton.mpr rfl),
    (C10_no_null_output 1 [] [] []).2 ⟨1, 100, none, some 7, some 1000⟩ rfl⟩

/-- A stored row of the market_daily table (src/sugars/models.py): the
five value columns plus the updated_at timestamp, modelled as a natural
number. Rows written by the pipeline always carry all five values
(drop_nulls runs before the write). -/
structure DbRecord where
  sugar_close : ℚ
  sugar_open : ℚ
  usd_cny_rate : ℚ
  bdi_index : ℚ
  import_cost_estimate : ℚ
  updated_at : Nat
deriving Repr, DecidableEq

/-- The market_daily table as a map from the primary key record_date to
the stored row; the function shape embeds the uniqueness of the key. -/
def Db : Type := Int → Option DbRecord

/-- The stored row produced from one candidate record at write time t:
both the update branch (etl_service.py lines 147-152) and the insert
branch (line 157 together with the updated_at default of models.py) set
all value columns from the record and updated_at to the current time. -/
def mkDbRecord (r : OutRecord) (t : Nat) : DbRecord :=
  ⟨r.sugar_close, r.sugar_open, r.usd_cny_rate, r.bdi_index,
    r.import_cost_estimate, t⟩

/-- One iteration of the upsert loop (etl_service.py lines 142-158): if a
row exists for record_date it is overwritten and the update counter
advances, otherwise a new row is created and the insert counter
advances. -/
def upsertStep (t : Nat) (acc : Db × Nat × Nat) (r : OutRecord) :
    Db × Nat × Nat :=
  match acc.1 r.record_date with
  | some _ =>
    (fun d => if d = r.record_date then some (mkDbRecord r t) else acc.1 d,
      acc.2.1, acc.2.2 + 1)
  | none =>
    (fun d => if d = r.record_date then some (mkDbRecord r t) else acc.1 d,
      acc.2.1 + 1, acc.2.2)

/-- The whole upsert loop over the record batch, returning the new table
and the new/updated counts. -/
def upsertAll (t : Nat) (rs : List OutRecord) (db : Db) : Db × Nat × Nat :=
  rs.foldl (upsertStep t) (db, 0, 0)

/-- The table effect of one upsert iteration, with the counters
ignored. -/
def applyRec (t : Nat) (db : Db) (r : OutRecord) : Db :=
  fun d => if d = r.record_date then some (mkDbRecord r t) else db d

/-- The table effect of the whole upsert loop. -/
def writeAll (t : Nat) (rs : List OutRecord) (db : Db) : Db :=
  rs.foldl (applyRec t) db

/-- The last record of a batch carrying a given record_date: the one
whose values the loop leaves in the table for that date. -/
def lastWithDate (d : Int) : List OutRecord → Option OutRecord
  | [] => none
  | r :: rs =>
    match lastWithDate d rs with
    | some x => some x
    | none => if r.record_date = d then some r else none

/-- The table produced by one pipeline run at write time t starting from
table db. -/
def runDb (t : Nat) (today : Int) (sugar : List SugarRow) (fx : List FxRow)
    (bdi : List BdiRow) (db : Db) : Db :=
  (upsertAll t (pipelineRecords today sugar fx bdi) db).1

/-- Both branches of one upsert iteration have the same table effect. -/
theorem upsertStep_fst (t : Nat) (acc : Db × Nat × Nat) (r : OutRecord) :
    (upsertStep t acc r).1 = applyRec t acc.1 r := by
  unfold upsertStep applyRec
  rcases h : acc.1 r.record_date with _ | x <;> simp [h]

/-- The table component of the upsert loop is the fold of the per-record
table effects. -/
theorem upsertAll_fst (t : Nat) (rs : List OutRecord) :
    ∀ (db : Db) (n u : Nat),
      (rs.foldl (upsertStep t) (db, n, u)).1 = writeAll t rs db := by
  induction rs with
  | nil => intro db n u; rfl
  | cons r rs ih =>
    intro db n u
    have h1 : upsertStep t (db, n, u) r =
        ((applyRec t db r, (upsertStep t (db, n, u) r).2.1,
          (upsertStep t (db, n, u) r).2.2) : Db × Nat × Nat) := by
      have := upsertStep_fst t (db, n, u) r
      exact Prod.ext this rfl
    calc (List.foldl (upsertStep t) (db, n, u) (r :: rs)).1
        = (List.foldl (upsertStep t) (upsertStep t (db, n, u) r) rs).1 := rfl
      _ = writeAll t rs (applyRec t db r) := by rw [h1]; exact ih _ _ _
      _ = writeAll t (r :: rs) db := rfl

/-- Looking up a date in the written table: the last batch record with
that date wins; a date absent from the batch is untouched. -/
theorem writeAll_lookup (t : Nat) (rs : List OutRecord) :
    ∀ (db : Db) (d : Int),
      writeAll t rs db d =
        match lastWithDate d rs with
        | some r => some (mkDbRecord r t)
        | none => db d := by
  induction rs with
  | nil => intro db d; rfl
  | cons r rs ih =>
    intro db d
    have hstep : writeAll t (r :: rs) db = writeAll t rs (applyRec t db r) := rfl
    rw [hstep, ih]
    rcases h : lastWithDate d rs with _ | x
    · simp only [lastWithDate, h]
      by_cases hd : r.record_date = d
      · subst hd
        simp [applyRec]
      · have hd2 : ¬ d = r.record_date := fun e => hd e.symm
        simp [applyRec, hd, hd2]
    · simp only [lastWithDate, h]

/-- A date has a last batch record exactly when it occurs in the
batch. -/
theorem lastWithDate_isSome_iff (d : Int) (rs : List OutRecord) :
    (lastWithDate d rs).isSome ↔ d ∈ rs.map (fun r => r.record_date) := by
  induction rs with
  | nil => simp [lastWithDate]
  | cons r rs ih =>
    simp only [List.map_cons, List.mem_cons]
    rcases h : lastWithDate d rs with _ | x
    · have hni : d ∉ rs.map (fun r => r.record_date) := by
        rw [← ih, h]; simp
      by_cases hd : r.record_date = d
      · simp [lastWithDate, h, hd]
      · have hd2 : d ≠ r.record_date := fun e => hd e.symm
        simp [lastWithDate, h, hd, hd2, hni]
    · have hi : d ∈ rs.map (fun r => r.record_date) := by
        rw [← ih, h]; simp
      simp [lastWithDate, h, hi]

/-- Lookup in the table after one run. -/
theorem runDb_lookup (t : Nat) (today : Int) (sugar : List SugarRow)
    (fx : List FxRow) (bdi : List BdiRow) (db : Db) (d : Int) :
    runDb t today sugar fx bdi db d =
      match lastWithDate d (pipelineRecords today sugar fx bdi) with
      | some r => some (mkDbRecord r t)
      | none => db d := by
  unfold runDb upsertAll
  rw [upsertAll_fst, writeAll_lookup]

/-- Claim C1: running the pipeline twice with the identical upstream
snapshot (same sugar, fx and bdi series and same current date) leaves
every stored row's five value columns identical to those after the first
run, creates no row for any record_date that the first run did not
create (and loses none), advances updated_at from the first write time to
the second on every batch date, and leaves rows outside the batch
entirely unchanged. -/
theorem C1_idempotent_rerun (today : Int) (sugar : List SugarRow)
    (fx : List FxRow) (bdi : List BdiRow) (db0 : Db) (t1 t2 : Nat)
    (h12 : t1 < t2) :
    (∀ d : Int,
      ((runDb t2 today sugar fx bdi (runDb t1 today sugar fx bdi db0)) d).isSome ↔
        ((runDb t1 today sugar fx bdi db0) d).isSome) ∧
      (∀ (d : Int) (r1 r2 : DbRecord),
        (runDb t1 today sugar fx bdi db0) d = some r1 →
          (runDb t2 today sugar fx bdi (runDb t1 today sugar fx bdi db0)) d =
            some r2 →
          r1.sugar_close = r2.sugar_close ∧ r1.sugar_open = r2.sugar_open ∧
            r1.usd_cny_rate = r2.usd_cny_rate ∧ r1.bdi_index = r2.bdi_index ∧
            r1.import_cost_estimate = r2.import_cost_estimate) ∧
      (∀ d : Int,
        d ∈ (pipelineRecords today sugar fx bdi).map (fun r => r.record_date) →
          ∃ r1 r2 : DbRecord,
            (runDb t1 today sugar fx bdi db0) d = some r1 ∧
              (runDb t2 today sugar fx bdi
                (runDb t1 today sugar fx bdi db0)) d = some r2 ∧
              r1.updated_at = t1 ∧ r2.updated_at = t2 ∧
              r1.updated_at < r2.updated_at) ∧
      (∀ d : Int,
        d ∉ (pipelineRecords today sugar fx bdi).map (fun r => r.record_date) →
          (runDb t2 today sugar fx bdi (runDb t1 today sugar fx bdi db0)) d =
            (runDb t1 today sugar fx bdi db0) d) := by
  refine ⟨fun d => ?_, fun d r1 r2 h1 h2 => ?_, fun d hd => ?_, fun d hd => ?_⟩
  · rw [runDb_lookup, runDb_lookup]
    rcases h : lastWithDate d (pipelineRecords today sugar fx bdi) with _ | x
    · simp
    · simp
  · rw [runDb_lookup] at h1 h2
    rcases h : lastWithDate d (pipelineRecords today sugar fx bdi) with _ | x
    · rw [h] at h1 h2
      simp only at h1 h2
      rw [runDb_lookup, h, h1] at h2
      injection h2 with h2
      subst h2
      exact ⟨rfl, rfl, rfl, rfl, rfl⟩
    · rw [h] at h1 h2
      simp only at h1 h2
      injection h1 with h1
      injection h2 with h2
      subst h1
      subst h2
      exact ⟨rfl, rfl, rfl, rfl, rfl⟩
  · have hsome := (lastWithDate_isSome_iff d (pipelineRecords today sugar fx bdi)).mpr hd
    rcases h : lastWithDate d (pipelineRecords today sugar fx bdi) with _ | x
    · rw [h] at hsome
      exact absurd hsome (by simp)
    · refine ⟨mkDbRecord x t1, mkDbRecord x t2, ?_, ?_, rfl, rfl, h12⟩
      · rw [runDb_lookup, h]
      · rw [runDb_lookup, h]
  · have hnone : lastWithDate d (pipelineRecords today sugar fx bdi) = none := by
      rcases h : lastWithDate d (pipelineRecords today sugar fx bdi) with _ | x
      · rfl
      · exact absurd ((lastWithDate_isSome_iff d _).mp (by rw [h]; rfl)) hd
    rw [runDb_lookup, hnone]

/-- Witness for C1 at the one-day snapshot, an empty starting table and
write times 0 and 1. -/
theorem C1_idempotent_rerun_witness :
    (0 : Nat) < 1 ∧
      ((∀ d : Int,
        ((runDb 1 1 [⟨1, 100, some 99⟩] [⟨1, 7⟩] [⟨1, 1000⟩]
            (runDb 0 1 [⟨1, 100, some 99⟩] [⟨1, 7⟩] [⟨1, 1000⟩]
              (fun _ => none))) d).isSome ↔
          ((runDb 0 1 [⟨1, 100, some 99⟩] [⟨1, 7⟩] [⟨1, 1000⟩]
            (fun _ => none)) d).isSome) ∧
      (∀ (d : Int) (r1 r2 : DbRecord),
        (runDb 0 1 [⟨1, 100, some 99⟩] [⟨1, 7⟩] [⟨1, 1000⟩]
            (fun _ => none)) d = some r1 →
          (runDb 1 1 [⟨1, 100, some 99⟩] [⟨1, 7⟩] [⟨1, 1000⟩]
            (runDb 0 1 [⟨1, 100, some 99⟩] [⟨1, 7⟩] [⟨1, 1000⟩]
              (fun _ => none))) d = some r2 →
          r1.sugar_close = r2.sugar_close ∧ r1.sugar_open = r2.sugar_open ∧
            r1.usd_cny_rate = r2.usd_cny_rate ∧ r1.bdi_index = r2.bdi_index ∧
            r1.import_cost_estimate = r2.import_cost_estimate) ∧
      (∀ d : Int,
        d ∈ (pipelineRecords 1 [⟨1, 100, some 99⟩] [⟨1, 7⟩] [⟨1, 1000⟩]).map
            (fun r => r.record_date) →
          ∃ r1 r2 : DbRecord,
            (runDb 0 1 [⟨1, 100, some 99⟩] [⟨1, 7⟩] [⟨1, 1000⟩]
              (fun _ => none)) d = some r1 ∧
              (runDb 1 1 [⟨1, 100, some 99⟩] [⟨1, 7⟩] [⟨1, 1000⟩]
                (runDb 0 1 [⟨1, 100, some 99⟩] [⟨1, 7⟩] [⟨1, 1000⟩]
                  (fun _ => none))) d = some r2 ∧
              r1.updated_at = 0 ∧ r2.updated_at = 1 ∧
              r1.updated_at < r2.updated_at) ∧
      (∀ d : Int,
        d ∉ (pipelineRecords 1 [⟨1, 100, some 99⟩] [⟨1, 7⟩] [⟨1, 1000⟩]).map
            (fun r => r.record_date) →
          (runDb 1 1 [⟨1, 100, some 99⟩] [⟨1, 7⟩] [⟨1, 1000⟩]
            (runDb 0 1 [⟨1, 100, some 99⟩] [⟨1, 7⟩] [⟨1, 1000⟩]
              (fun _ => none))) d =
            (runDb 0 1 [⟨1, 100, some 99⟩] [⟨1, 7⟩] [⟨1, 1000⟩]
              (fun _ => none)) d)) :=
  ⟨Nat.zero_lt_one,
    C1_idempotent_rerun 1 [⟨1, 100, some 99⟩] [⟨1, 7⟩] [⟨1, 1000⟩]
      (fun _ => none) 0 1 Nat.zero_lt_one⟩

/-- The dict returned by fetch_and_store_data: either
status success with the new/updated counts (etl_service.py line 162) or
status error with a detail message (lines 48 and 133). -/
inductive RunResult where
  | success (newCount updatedCount : Nat)
  | error (detail : String)
deriving Repr, DecidableEq

/-- How one call of fetch_and_store_data ends for its caller: either a
returned result dict, or an uncaught exception propagating out of the
function (the load block of lines 135-162 is not inside any try). -/
inductive RunOutcome where
  | returned (r : RunResult)
  | raised (msg : String)
deriving Repr, DecidableEq

/-- One run's environment: the outcome of each upstream fetch, and
whether an exception is raised inside the transform try-block
(lines 52-129) or inside the load block (lines 135-162). The transform
and load of this model are total, so the two failure knobs stand for the
runtime exceptions (cast errors, connectivity loss) those blocks can
raise in the source. -/
structure PipelineInputs where
  sugarFetch : Except String (List SugarRow)
  fxFetch : Except String (List FxRow)
  bdiFetch : Except String (List BdiRow)
  transformFailure : Option String
  writeFailure : Option String

/-- The degraded exchange-rate fallback of etl_service.py lines 32-39: a
constant rate of 7.0 on each of the 60 calendar days up to today. -/
def syntheticFx (today : Int) : List FxRow :=
  (List.range 60).map (fun i => (⟨today - i, 7⟩ : FxRow))

/-- The whole fetch_and_store_data function (etl_service.py lines
9-162): the outer try catches a failed sugar or bdi fetch and returns an
error dict; a failed fx fetch is caught by the inner try and replaced by
the synthetic series; a transform exception returns an error dict; a
load exception is uncaught and propagates; otherwise the upsert loop
runs and a success dict with counts is returned. -/
def fetchAndStoreData (i : PipelineInputs) (today : Int) (t : Nat)
    (db : Db) : RunOutcome × Db :=
  match i.sugarFetch with
  | Except.error e => (RunOutcome.returned (RunResult.error e), db)
  | Except.ok sugar =>
    let fx : List FxRow :=
      match i.fxFetch with
      | Except.ok f => f
      | Except.error _ => syntheticFx today
    match i.bdiFetch with
    | Except.error e => (RunOutcome.returned (RunResult.error e), db)
    | Except.ok bdi =>
      match i.transformFailure with
      | some e => (RunOutcome.returned (RunResult.error e), db)
      | none =>
        match i.writeFailure with
        | some e => (RunOutcome.raised e, db)
        | none =>
          let res := upsertAll t (pipelineRecords today sugar fx bdi) db
          (RunOutcome.returned (RunResult.success res.2.1 res.2.2), res.1)

/-- Classification of an outcome: success, failure returned as a result
dict, or an exception that escaped the function. -/
inductive RunStatus where
  | succeeded
  | failedResult (detail : String)
  | exceptionRaised (msg : String)
deriving Repr, DecidableEq

/-- The classification of a run outcome. -/
def statusOf : RunOutcome → RunStatus
  | RunOutcome.returned (RunResult.success _ _) => RunStatus.succeeded
  | RunOutcome.returned (RunResult.error d) => RunStatus.failedResult d
  | RunOutcome.raised m => RunStatus.exceptionRaised m

/-- The amended propagation policy, written from its own words for
comparison with the code: a failed sugar or bdi fetch and a transform
failure surface as a failed result dict; a failed write propagates as a
raised exception; a failed fx fetch alone (the designed degraded
fallback) still yields success. -/
def specExpectedStatus (i : PipelineInputs) : RunStatus :=
  match i.sugarFetch with
  | Except.error e => RunStatus.failedResult e
  | Except.ok _ =>
    match i.bdiFetch with
    | Except.error e => RunStatus.failedResult e
    | Except.ok _ =>
      match i.transformFailure with
      | some e => RunStatus.failedResult e
      | none =>
        match i.writeFailure with
        | some e => RunStatus.exceptionRaised e
        | none => RunStatus.succeeded

/-- Claim C7 counterexample: with every fetch succeeding and the
persistence write failing, fetch_and_store_data does not return a failed
result dict — the exception escapes the function (the load block of
etl_service.py lines 135-162 is outside every try), contradicting the
claim that every stage error surfaces as a failed PipelineRunResult. -/
theorem C7_write_error_counterexample :
    statusOf (fetchAndStoreData
        ⟨Except.ok [], Except.ok [], Except.ok [], none, some ("db down")⟩
        0 0 (fun _ => none)).1 = RunStatus.exceptionRaised ("db down") ∧
      (fetchAndStoreData
        ⟨Except.ok [], Except.ok [], Except.ok [], none, some ("db down")⟩
        0 0 (fun _ => none)).1 ≠
        RunOutcome.returned (RunResult.error ("db down")) := by
  constructor
  · rfl
  · intro h
    exact RunOutcome.noConfusion h

/-- Claim C7 (amended): every run's classification follows the amended
propagation policy — errors of the sugar fetch, the bdi fetch and the
transform surface as a failed result dict; a write error is not
swallowed but propagates as a raised exception rather than a result
dict; a failed fx fetch alone is degraded to the synthetic series and
the run succeeds. -/
theorem C7_error_propagation (i : PipelineInputs) (today : Int) (t : Nat)
    (db : Db) :
    statusOf (fetchAndStoreData i today t db).1 = specExpectedStatus i := by
  rcases i with ⟨sf, ff, bf, tf, wf⟩
  rcases sf with e | sugar
  · rfl
  rcases bf with e | bdi
  · rfl
  rcases tf with _ | e
  · rcases wf with _ | e
    · rfl
    · rfl
  · rfl

end Sugars
